import Mathlib

/-!
Shallow embedding of the `diffcmp` cross-validation script (Ruby, the only
core source file of the repository).  The script orchestrates opaque
subprocesses (the tool under test, the native VCS clients, and the
`diffstat` formatter); those are modelled as an oracle (`World`) mapping a
working directory and a command line to the text the subprocess prints.
Everything the script itself computes — probe-output parsing, URL
normalization, log-line extraction, command construction via `sprintf`,
byte comparison, artifact naming — is embedded as executable Lean
functions, translated line by line from the source.
-/

namespace Diffcmp

/-- Characters removed by Ruby `String#strip`: null, horizontal tab, line
feed, vertical tab, form feed, carriage return, space. -/
def rubyStripChar (c : Char) : Bool :=
  c = ' ' || c = '\t' || c = '\x0a' || c = '\x0b' || c = '\x0c' || c = '\x0d' || c = '\x00'

/-- Ruby `String#strip`: drop leading and trailing strip characters. -/
def rubyStrip (s : String) : String :=
  String.mk (((s.data.dropWhile rubyStripChar).reverse.dropWhile rubyStripChar).reverse)

/-- Helper for `readlines`: accumulates the current line in reverse. -/
def readlinesAux (acc : List Char) : List Char → List (List Char)
  | [] => if acc.isEmpty then [] else [acc.reverse]
  | c :: rest =>
    if c = '\x0a' then (acc.reverse ++ ['\x0a']) :: readlinesAux [] rest
    else readlinesAux (c :: acc) rest

/-- Ruby `IO#readlines` on the full captured output: split after every
newline, keeping the newline in each line; a final fragment without a
newline is kept as-is; no empty string is ever produced. -/
def readlines (s : String) : List String :=
  (readlinesAux [] s.data).map String.mk

/-- Suffixes of the character list that start just after a newline: these,
together with position 0, are exactly the positions where the Ruby regex
anchor `^` can match. -/
def caretPositions : List Char → List (List Char)
  | [] => []
  | c :: rest =>
    if c = '\x0a' then rest :: caretPositions rest else caretPositions rest

/-- Anchored match for the Ruby regex `^r([0-9]+)` at one position: a
literal `r`, then at least one digit; the first capture group is the
maximal digit run. -/
def svnAnchored : List Char → Option String
  | 'r' :: rest =>
    let ds := rest.takeWhile Char.isDigit
    if ds.isEmpty then none else some (String.mk ds)
  | _ => none

/-- Ruby `line.match(/^r([0-9]+)/)` returning the first capture group:
tried at position 0 and after every newline, earliest position wins. -/
def svnLogExtract (s : String) : Option String :=
  List.findSome? svnAnchored (s.data :: caretPositions s.data)

/-- Anchored match for the Ruby regex `^[0-9]+:(.*)` at one position: at
least one digit, a colon, then the capture group is everything up to (and
excluding) the next newline. -/
def hgAnchored (cs : List Char) : Option String :=
  let ds := cs.takeWhile Char.isDigit
  if ds.isEmpty then none
  else
    match cs.drop ds.length with
    | ':' :: rest => some (String.mk (rest.takeWhile (fun c => c ≠ '\x0a')))
    | _ => none

/-- Ruby `line.match(/^[0-9]+:(.*)/)` returning the first capture group. -/
def hgLogExtract (s : String) : Option String :=
  List.findSome? hgAnchored (s.data :: caretPositions s.data)

/-- Anchored match for the Ruby regex `^\/` at one position. -/
def startsSlash : List Char → Bool
  | '/' :: _ => true
  | _ => false

/-- Ruby `url.match(/^\//)` viewed as a Bool: does some line of `url`
start with a slash. -/
def matchCaretSlash (s : String) : Bool :=
  (s.data :: caretPositions s.data).any startsSlash

/-- Lines 34 to 36 of the script: if the probed type is `subversion` and
the url matches `^\/`, prepend `file://`; otherwise keep the url. -/
def normalizeUrl (type url : String) : String :=
  if type = "subversion" && matchCaretSlash url then "file://" ++ url else url

/-- Result of the probe: backend type (first output line, stripped) and
normalized url (second output line, stripped). -/
structure RepositoryDescriptor where
  backendType : String
  url : String
deriving Repr, DecidableEq

/-- Lines 27 to 36 of the script.  `exitOk` is whether the probe
subprocess exited with status 0, `out` its captured output lines.  On a
non-zero exit the script runs `exit 1` (line 30); when the output has
fewer than two lines, `out[1]` is `nil` and `nil.strip()` raises
`NoMethodError`, which also terminates the Ruby process with exit
status 1.  Both fatal paths are therefore `Except.error 1`. -/
def probe (exitOk : Bool) (out : List String) : Except Nat RepositoryDescriptor :=
  if exitOk then
    match out with
    | l0 :: l1 :: _ =>
      let type := rubyStrip l0
      let url := rubyStrip l1
      Except.ok ⟨type, normalizeUrl type url⟩
    | _ => Except.error 1
  else Except.error 1

/-- Ruby `sprintf` restricted to the `%s` directive, which is the only
directive occurring in the command templates of the script: each `%s`
consumes the next argument, every other character is copied. -/
def substS : List Char → List String → List Char
  | [], _ => []
  | '%' :: 's' :: rest, a :: args => a.data ++ substS rest args
  | c :: rest, args => c :: substS rest args

/-- Ruby `sprintf(tmpl)` with no argument. -/
def sprintf0 (tmpl : String) : String :=
  String.mk (substS tmpl.data [])

/-- Ruby `sprintf(tmpl, a)`. -/
def sprintf1 (tmpl a : String) : String :=
  String.mk (substS tmpl.data [a])

/-- Ruby `sprintf(tmpl, a, b)`. -/
def sprintf2 (tmpl a b : String) : String :=
  String.mk (substS tmpl.data [a, b])

/-- One entry of the `diffcmd` hash (lines 41 to 62 of the script).  The
`logregex` field holds the embedded matcher of the Ruby regex literal. -/
structure BackendSpec where
  log : String
  logregex : Option (String → Option String)
  single : String
  double : String
  passurl : Bool

/-- The `subversion` entry of the `diffcmd` hash. -/
def subversionSpec : BackendSpec where
  log := "svn log -q %s"
  logregex := some svnLogExtract
  single := "svn diff -c %s %s"
  double := "svn diff -r %s:%s %s"
  passurl := true

/-- The `git` entry of the `diffcmd` hash. -/
def gitSpec : BackendSpec where
  log := "git rev-list HEAD"
  logregex := none
  single := "git diff-tree -U --no-renames --root %s"
  double := "git diff-tree -U --no-renames %s %s"
  passurl := false

/-- The `mercurial` entry of the `diffcmd` hash. -/
def mercurialSpec : BackendSpec where
  log := "hg log -q"
  logregex := some hgLogExtract
  single := "hg diff -c %s"
  double := "hg diff -r %s -r %s"
  passurl := false

/-- Lookup in the `diffcmd` hash.  A Ruby hash yields `nil` on an unknown
key, and the subsequent `diffcmd[type][:passurl]` access raises
`NoMethodError`; the missing key is modelled as `none`. -/
def diffcmd (type : String) : Option BackendSpec :=
  if type = "subversion" then some subversionSpec
  else if type = "git" then some gitSpec
  else if type = "mercurial" then some mercurialSpec
  else none

/-- Line 117 of the script: the diffstat formatter command,
`diffstat -t -p0` for subversion and `diffstat -t -p1` otherwise. -/
def diffstatCommand (type : String) : String :=
  "diffstat -t -p" ++ (if type = "subversion" then "0" else "1")

/-- Lines 68 to 72 of the script: the log command, with the url
substituted when `passurl` is set. -/
def buildLogCommand (spec : BackendSpec) (url : String) : String :=
  if spec.passurl then sprintf1 spec.log url else sprintf0 spec.log

/-- Lines 109 to 113 of the script: the single-revision diff command,
with revision and url substituted when `passurl` is set, only the
revision otherwise. -/
def buildSingleCommand (spec : BackendSpec) (rev url : String) : String :=
  if spec.passurl then sprintf2 spec.single rev url else sprintf1 spec.single rev

/-- Line 105 of the script: the invocation of the tool under test for one
revision, with caching disabled; `repo` is the caller-supplied repository
argument, passed through unmodified. -/
def pepperCommand (pepper tmpPath rev repo : String) : String :=
  pepper ++ " --no-cache -q " ++ tmpPath ++ " -r" ++ rev ++ " " ++ repo

/-- Line 27 of the script: the probe invocation of the tool under test. -/
def probeCommand (pepper tmpPath repo : String) : String :=
  pepper ++ " -q " ++ tmpPath ++ " " ++ repo

/-- Lines 74 to 84 of the script: when a `logregex` is present, each line
is matched and the first capture group of every matching line is kept, in
order; lines that do not match are dropped.  Without a `logregex` the
line list is kept as-is. -/
def extractLog (logregex : Option (String → Option String)) (log : List String) : List String :=
  match logregex with
  | some f => log.filterMap f
  | none => log

/-- Oracle for the opaque subprocesses.  `run cwd cmd` is the full stdout
text printed by command line `cmd` started in working directory `cwd`;
`runFilter cwd cmd stdin` is the same for the diffstat formatter, which
additionally reads the given lines on its standard input. -/
structure World where
  run : String → String → String
  runFilter : String → String → List String → String

/-- Comparison outcome for one revision (section 3 of the spec). -/
structure ComparisonResult where
  revision : String
  candidateOutput : String
  referenceOutput : String
  isMatch : Bool
deriving Repr, DecidableEq

/-- Observable side effects of one loop iteration: the subprocess
invocations issued (working directory and command line), the files written
(path and content) and the warnings printed to stderr. -/
structure RevEffects where
  invocations : List (String × String)
  files : List (String × String)
  warnings : List String
deriving Repr, DecidableEq

/-- Lines 99 to 128 of the script: one iteration of the comparison loop.
The raw log entry is stripped (line 100); the tool under test is invoked
with `repo` (line 105); the native diff command is built from the spec
(lines 109 to 113) and its output piped through the diffstat formatter
(lines 117 to 120); the two joined outputs are compared byte for byte
(line 123) and, on mismatch, two artifact files under `olddir` are
written and a warning is emitted (lines 124 to 127). -/
def processRevision (w : World) (spec : BackendSpec) (type pepper tmpPath repo url olddir cwd : String)
    (rawRev : String) : ComparisonResult × RevEffects :=
  let rev := rubyStrip rawRev
  let pepperCmd := pepperCommand pepper tmpPath rev repo
  let outPepper := String.join (readlines (w.run cwd pepperCmd))
  let diffCmd := buildSingleCommand spec rev url
  let diffData := readlines (w.run cwd diffCmd)
  let dsCmd := diffstatCommand type
  let outNative := String.join (readlines (w.runFilter cwd dsCmd diffData))
  let isMatch := outPepper == outNative
  (⟨rev, outPepper, outNative, isMatch⟩,
   if isMatch then
     ⟨[(cwd, pepperCmd), (cwd, diffCmd), (cwd, dsCmd)], [], []⟩
   else
     ⟨[(cwd, pepperCmd), (cwd, diffCmd), (cwd, dsCmd)],
      [(olddir ++ "/diff.pepper." ++ rev, outPepper),
       (olddir ++ "/diff.native." ++ rev, outNative)],
      ["Warning: Diffstats for revision " ++ rev ++ " don\x27t match! Check diff.pepper." ++
        rev ++ " and diff.native." ++ rev]⟩)

/-- Observable outcome of a whole run that got past the probe. -/
structure RunResult where
  descriptor : RepositoryDescriptor
  results : List ComparisonResult
  trace : List (String × String)
  files : List (String × String)
  warnings : List String
  exitCode : Nat

/-- The whole script.  `exitOk` is the exit status check of the probe
subprocess (line 30), `olddir` the directory the tool was launched from
(line 63).  After the probe, the spec is looked up (a missing key crashes
Ruby, modelled as error), the working directory is changed to the url
unless `passurl` (line 64), the log is fetched and extracted (lines 66 to
84), and every extracted revision is processed in order (lines 99 to
129); the script then ends, so the process exits with status 0. -/
def runPipeline (w : World) (exitOk : Bool) (pepper typeScript diffScript repo olddir : String) :
    Except Nat RunResult :=
  let probeOut := readlines (w.run olddir (probeCommand pepper typeScript repo))
  match probe exitOk probeOut with
  | Except.error e => Except.error e
  | Except.ok desc =>
    match diffcmd desc.backendType with
    | none => Except.error 1
    | some spec =>
      let cwd := if spec.passurl then olddir else desc.url
      let logCmd := buildLogCommand spec desc.url
      let logLines := readlines (w.run cwd logCmd)
      let revs := extractLog spec.logregex logLines
      let per := revs.map (processRevision w spec desc.backendType pepper diffScript repo desc.url olddir cwd)
      Except.ok
        { descriptor := desc
          results := per.map Prod.fst
          trace := (cwd, logCmd) :: (per.map (fun p => p.snd.invocations)).flatten
          files := (per.map (fun p => p.snd.files)).flatten
          warnings := (per.map (fun p => p.snd.warnings)).flatten
          exitCode := 0 }

/-- A concrete oracle used to exhibit behaviour on a one-revision git
repository whose candidate diffstat has exactly the lines of the reference
diffstat but in the opposite order. -/
def demoWorld : World where
  run := fun _ cmd =>
    if cmd = probeCommand "pepper" "/tmp/t" "repo" then "git\n/repo\n"
    else if cmd = "git rev-list HEAD" then "deadbeef\n"
    else if cmd = pepperCommand "pepper" "/tmp/d" "deadbeef" "repo" then "1,0,0,a.c\n1,0,0,b.c\n"
    else "raw diff text\n"
  runFilter := fun _ _ _ => "1,0,0,b.c\n1,0,0,a.c\n"

/-- Ordered revision list of a run. -/
def revisionIdsOf (r : RunResult) : List String :=
  r.results.map ComparisonResult.revision

/-- Per-revision match verdicts of a run, in order. -/
def matchVerdictsOf (r : RunResult) : List Bool :=
  r.results.map ComparisonResult.isMatch

theorem substS_split (pre rest : List Char) (a : String) (args : List String)
    (h : '%' ∉ pre) :
    substS (pre ++ '%' :: 's' :: rest) (a :: args) = pre ++ (a.data ++ substS rest args) := by
  induction pre with
  | nil => rfl
  | cons c pr ih =>
    have hc : c ≠ '%' := fun e => h (e ▸ List.mem_cons_self c pr)
    have hpr : '%' ∉ pr := fun hm => h (List.mem_cons_of_mem c hm)
    simp [substS, hc, ih hpr]

theorem readlinesAux_ne_nil (cs : List Char) :
    ∀ (acc : List Char), ∀ l ∈ readlinesAux acc cs, l ≠ [] := by
  induction cs with
  | nil =>
    intro acc l hl
    simp only [readlinesAux] at hl
    split at hl
    · simp at hl
    · rename_i h
      simp at hl
      subst hl
      simp [List.isEmpty_iff] at h
      simpa using h
  | cons c rest ih =>
    intro acc l hl
    simp only [readlinesAux] at hl
    split at hl
    · rcases List.mem_cons.mp hl with h | h
      · subst h; simp
      · exact ih [] l h
    · exact ih (c :: acc) l hl

theorem readlines_ne_empty (s : String) : ∀ r ∈ readlines s, r ≠ "" := by
  intro r hr
  obtain ⟨l, hl, hml⟩ := List.mem_map.mp hr
  intro he
  have : l = [] := congrArg String.data (hml.trans he)
  exact readlinesAux_ne_nil s.data [] l hl this

theorem caretPositions_eq_nil (cs : List Char) (h : '\x0a' ∉ cs) :
    caretPositions cs = [] := by
  induction cs with
  | nil => rfl
  | cons c rest ih =>
    have hc : c ≠ '\x0a' := fun e => h (e ▸ List.mem_cons_self c rest)
    have hrest : '\x0a' ∉ rest := fun hm => h (List.mem_cons_of_mem c hm)
    simp [caretPositions, hc, ih hrest]

theorem startsSlash_eq_head (cs : List Char) :
    startsSlash cs = decide (cs.head? = some '/') := by
  cases cs with
  | nil => rfl
  | cons c rest =>
    by_cases hc : c = '/'
    · subst hc; rfl
    · simp [startsSlash, hc]

theorem processRevision_fst (w : World) (spec : BackendSpec)
    (type pepper tmpPath repo url olddir cwd rawRev : String) :
    (processRevision w spec type pepper tmpPath repo url olddir cwd rawRev).fst =
      ⟨rubyStrip rawRev,
       String.join (readlines (w.run cwd (pepperCommand pepper tmpPath (rubyStrip rawRev) repo))),
       String.join (readlines (w.runFilter cwd (diffstatCommand type)
         (readlines (w.run cwd (buildSingleCommand spec (rubyStrip rawRev) url))))),
       String.join (readlines (w.run cwd (pepperCommand pepper tmpPath (rubyStrip rawRev) repo))) ==
         String.join (readlines (w.runFilter cwd (diffstatCommand type)
           (readlines (w.run cwd (buildSingleCommand spec (rubyStrip rawRev) url)))))⟩ := rfl

theorem processRevision_invocations (w : World) (spec : BackendSpec)
    (type pepper tmpPath repo url olddir cwd rawRev : String) :
    (processRevision w spec type pepper tmpPath repo url olddir cwd rawRev).snd.invocations =
      [(cwd, pepperCommand pepper tmpPath (rubyStrip rawRev) repo),
       (cwd, buildSingleCommand spec (rubyStrip rawRev) url),
       (cwd, diffstatCommand type)] := by
  simp only [processRevision]
  split <;> rfl

theorem processRevision_snd (w : World) (b : BackendSpec)
    (t p d repo u o c x : String) :
    (processRevision w b t p d repo u o c x).snd =
      (if (processRevision w b t p d repo u o c x).fst.isMatch then
        (⟨[(c, pepperCommand p d (rubyStrip x) repo),
           (c, buildSingleCommand b (rubyStrip x) u),
           (c, diffstatCommand t)], [], []⟩ : RevEffects)
      else
        ⟨[(c, pepperCommand p d (rubyStrip x) repo),
          (c, buildSingleCommand b (rubyStrip x) u),
          (c, diffstatCommand t)],
         [(o ++ "/diff.pepper." ++ (processRevision w b t p d repo u o c x).fst.revision,
             (processRevision w b t p d repo u o c x).fst.candidateOutput),
          (o ++ "/diff.native." ++ (processRevision w b t p d repo u o c x).fst.revision,
             (processRevision w b t p d repo u o c x).fst.referenceOutput)],
         ["Warning: Diffstats for revision " ++ (processRevision w b t p d repo u o c x).fst.revision ++
            " don\x27t match! Check diff.pepper." ++
            (processRevision w b t p d repo u o c x).fst.revision ++ " and diff.native." ++
            (processRevision w b t p d repo u o c x).fst.revision]⟩) := rfl

/-- C1: for every revision processed, the comparison verdict is true
exactly when the candidate diffstat text and the reference diffstat text
are equal as byte strings; no normalization happens before comparing, so
on a concrete run where the candidate lines are exactly the reference
lines in the opposite order the verdict is false. -/
theorem c1_matches_iff_byte_equal :
    (∀ (w : World) (b : BackendSpec) (t p d repo u o c x : String),
      ((processRevision w b t p d repo u o c x).fst.isMatch = true ↔
        (processRevision w b t p d repo u o c x).fst.candidateOutput =
          (processRevision w b t p d repo u o c x).fst.referenceOutput)) ∧
    readlines (processRevision demoWorld gitSpec "git" "pepper" "/tmp/d" "repo"
        "/repo" "/old" "/repo" "deadbeef\n").fst.candidateOutput =
      ["1,0,0,a.c\n", "1,0,0,b.c\n"] ∧
    readlines (processRevision demoWorld gitSpec "git" "pepper" "/tmp/d" "repo"
        "/repo" "/old" "/repo" "deadbeef\n").fst.referenceOutput =
      ["1,0,0,b.c\n", "1,0,0,a.c\n"] ∧
    (processRevision demoWorld gitSpec "git" "pepper" "/tmp/d" "repo"
        "/repo" "/old" "/repo" "deadbeef\n").fst.isMatch = false := by
  refine ⟨fun w b t p d repo u o c x => ?_, by decide, by decide, by decide⟩
  rw [processRevision_fst]
  exact beq_iff_eq

/-- C2: artifact files are written exactly for mismatching revisions; on
a mismatch the files are the candidate output under the pepper tag and
the reference output under the native tag, both under the launch
directory, together with a warning naming the revision; on a match no
file and no warning is produced. -/
theorem c2_artifacts_iff_mismatch (w : World) (b : BackendSpec)
    (t p d repo u o c x : String) :
    ((processRevision w b t p d repo u o c x).fst.isMatch = false →
      (processRevision w b t p d repo u o c x).snd.files =
        [(o ++ "/diff.pepper." ++ (processRevision w b t p d repo u o c x).fst.revision,
            (processRevision w b t p d repo u o c x).fst.candidateOutput),
         (o ++ "/diff.native." ++ (processRevision w b t p d repo u o c x).fst.revision,
            (processRevision w b t p d repo u o c x).fst.referenceOutput)] ∧
      (processRevision w b t p d repo u o c x).snd.warnings =
        ["Warning: Diffstats for revision " ++
           (processRevision w b t p d repo u o c x).fst.revision ++
           " don\x27t match! Check diff.pepper." ++
           (processRevision w b t p d repo u o c x).fst.revision ++ " and diff.native." ++
           (processRevision w b t p d repo u o c x).fst.revision]) ∧
    ((processRevision w b t p d repo u o c x).fst.isMatch = true →
      (processRevision w b t p d repo u o c x).snd.files = [] ∧
      (processRevision w b t p d repo u o c x).snd.warnings = []) := by
  constructor
  · intro h
    rw [processRevision_snd, h]
    simp
  · intro h
    rw [processRevision_snd, h]
    simp

/-- Witness for C2 at a concrete mismatching run: exactly the two tagged
artifact files and the warning naming the revision are produced. -/
theorem c2_witness :
    (processRevision demoWorld gitSpec "git" "pepper" "/tmp/d" "repo"
        "/repo" "/old" "/repo" "deadbeef\n").snd.files =
      [("/old/diff.pepper.deadbeef", "1,0,0,a.c\n1,0,0,b.c\n"),
       ("/old/diff.native.deadbeef", "1,0,0,b.c\n1,0,0,a.c\n")] ∧
    (processRevision demoWorld gitSpec "git" "pepper" "/tmp/d" "repo"
        "/repo" "/old" "/repo" "deadbeef\n").snd.warnings =
      ["Warning: Diffstats for revision deadbeef don\x27t match! Check diff.pepper.deadbeef and diff.native.deadbeef"] := by
  have h := (c2_artifacts_iff_mismatch demoWorld gitSpec "git" "pepper" "/tmp/d" "repo"
    "/repo" "/old" "/repo" "deadbeef\n").1 (by decide)
  exact ⟨h.1.trans (by decide), h.2.trans (by decide)⟩

/-- C3 counterexample: a successful probe whose two output lines are
`subversion` and `/srv/repo` yields a descriptor whose URL is the
file:// rewrite, which differs from the second output line both raw and
stripped. -/
theorem c3_counterexample :
    probe true ["subversion\n", "/srv/repo\n"] =
      Except.ok ⟨"subversion", "file:///srv/repo"⟩ ∧
    ("file:///srv/repo" : String) ≠ "/srv/repo\n" ∧
    ("file:///srv/repo" : String) ≠ "/srv/repo" :=
  ⟨rfl, by decide, by decide⟩

/-- C3 (amended): the probe fails with exit status 1, without retry,
exactly when the subprocess exited non-zero or its output has fewer than
two lines, and a failed probe aborts the whole run with exit status 1; on
success the descriptor backend type is the stripped first output line and
the URL is the stripped second output line with the subversion file://
normalization applied. -/
theorem c3_probe_contract :
    (∀ (exitOk : Bool) (out : List String),
      probe exitOk out = Except.error 1 ↔ (exitOk = false ∨ out.length < 2)) ∧
    (∀ (l0 l1 : String) (rest : List String),
      probe true (l0 :: l1 :: rest) =
        Except.ok ⟨rubyStrip l0, normalizeUrl (rubyStrip l0) (rubyStrip l1)⟩) ∧
    (∀ (w : World) (exitOk : Bool) (pepper ts ds repo olddir : String),
      probe exitOk (readlines (w.run olddir (probeCommand pepper ts repo))) = Except.error 1 →
      runPipeline w exitOk pepper ts ds repo olddir = Except.error 1) := by
  refine ⟨fun exitOk out => ?_, fun l0 l1 rest => rfl,
    fun w exitOk pepper ts ds repo olddir h => ?_⟩
  · cases exitOk
    · simp [probe]
    · cases out with
      | nil => simp [probe]
      | cons l0 tl =>
        cases tl with
        | nil => simp [probe]
        | cons l1 tl2 => simp [probe]
  · simp only [runPipeline, h]

/-- Witness for C3 at a concrete input: a probe subprocess with non-zero
exit status aborts the whole run with exit status 1. -/
theorem c3_witness :
    runPipeline demoWorld false "pepper" "/tmp/t" "/tmp/d" "repo" "/old" = Except.error 1 :=
  c3_probe_contract.2.2 demoWorld false "pepper" "/tmp/t" "/tmp/d" "repo" "/old" rfl

/-- C4: for a URL with no interior newline, the descriptor URL gets the
file:// rewrite exactly when the backend type is subversion and the raw
URL begins with a slash, and is passed through unchanged otherwise; the
rewrite is applied exactly once on the way through the probe. -/
theorem c4_url_normalization :
    (∀ (type url : String), '\x0a' ∉ url.data →
      normalizeUrl type url =
        (if type = "subversion" ∧ url.data.head? = some '/' then "file://" ++ url else url)) ∧
    normalizeUrl "subversion" "/srv/repo" = "file:///srv/repo" ∧
    normalizeUrl "subversion" "http://host/repo" = "http://host/repo" ∧
    (∀ url : String, normalizeUrl "git" url = url) ∧
    (∀ url : String, normalizeUrl "mercurial" url = url) ∧
    probe true ["subversion\n", "/srv/repo\n"] =
      Except.ok ⟨"subversion", "file:///srv/repo"⟩ := by
  refine ⟨fun type url h => ?_, by decide, by decide,
    fun url => by simp [normalizeUrl], fun url => by simp [normalizeUrl], rfl⟩
  simp only [normalizeUrl, matchCaretSlash, caretPositions_eq_nil url.data h,
    List.any_cons, List.any_nil, startsSlash_eq_head]
  by_cases ht : type = "subversion" <;> by_cases hu : url.data.head? = some '/' <;>
    simp [ht, hu]

/-- Witness for C4 at a concrete input: a subversion URL beginning with a
slash is rewritten to a file:// URI. -/
theorem c4_witness : normalizeUrl "subversion" "/x" = "file:///x" := by
  have h := c4_url_normalization.1 "subversion" "/x" (by decide)
  simpa using h

theorem sprintf1_svn_log (u : String) : sprintf1 "svn log -q %s" u = "svn log -q " ++ u := by
  apply String.ext
  show substS ("svn log -q %s").data [u] = _
  rw [show ("svn log -q %s").data = ("svn log -q ").data ++ '%' :: 's' :: ([] : List Char) from rfl]
  rw [substS_split _ _ _ _ (by decide)]
  simp [substS]

theorem sprintf2_svn_single (r u : String) :
    sprintf2 "svn diff -c %s %s" r u = "svn diff -c " ++ r ++ " " ++ u := by
  apply String.ext
  show substS ("svn diff -c %s %s").data [r, u] = _
  rw [show ("svn diff -c %s %s").data =
    ("svn diff -c ").data ++ '%' :: 's' :: ([' '] ++ '%' :: 's' :: ([] : List Char)) from rfl]
  rw [substS_split _ _ _ _ (by decide)]
  rw [substS_split [' '] _ _ _ (by decide)]
  simp [substS]

theorem sprintf1_git_single (r : String) :
    sprintf1 "git diff-tree -U --no-renames --root %s" r =
      "git diff-tree -U --no-renames --root " ++ r := by
  apply String.ext
  show substS ("git diff-tree -U --no-renames --root %s").data [r] = _
  rw [show ("git diff-tree -U --no-renames --root %s").data =
    ("git diff-tree -U --no-renames --root ").data ++ '%' :: 's' :: ([] : List Char) from rfl]
  rw [substS_split _ _ _ _ (by decide)]
  simp [substS]

theorem sprintf1_hg_single (r : String) :
    sprintf1 "hg diff -c %s" r = "hg diff -c " ++ r := by
  apply String.ext
  show substS ("hg diff -c %s").data [r] = _
  rw [show ("hg diff -c %s").data = ("hg diff -c ").data ++ '%' :: 's' :: ([] : List Char) from rfl]
  rw [substS_split _ _ _ _ (by decide)]
  simp [substS]

/-- C5: with an extractor set, a matching line contributes its first
capture group in place, a non-matching line (such as a blank line) is
dropped and not counted, and the output preserves the input line order;
the mercurial log line `5:abc123def` yields `abc123def`, not `5`. -/
theorem c5_extractor_semantics (pre post : List String) :
    extractLog mercurialSpec.logregex (pre ++ "5:abc123def\n" :: post) =
      extractLog mercurialSpec.logregex pre ++
        "abc123def" :: extractLog mercurialSpec.logregex post ∧
    extractLog mercurialSpec.logregex (pre ++ "\n" :: post) =
      extractLog mercurialSpec.logregex pre ++ extractLog mercurialSpec.logregex post ∧
    extractLog subversionSpec.logregex (pre ++ "r42 | alice | 2011\n" :: post) =
      extractLog subversionSpec.logregex pre ++
        "42" :: extractLog subversionSpec.logregex post ∧
    hgLogExtract "5:abc123def\n" = some "abc123def" ∧
    hgLogExtract "\n" = none := by
  have h1 : hgLogExtract "5:abc123def\n" = some "abc123def" := by decide
  have h2 : hgLogExtract "\n" = none := by decide
  have h3 : svnLogExtract "r42 | alice | 2011\n" = some "42" := by decide
  refine ⟨?_, ?_, ?_, h1, h2⟩ <;>
    simp [extractLog, mercurialSpec, subversionSpec, List.filterMap_append,
      List.filterMap_cons, h1, h2, h3]

/-- C6: the backend command table is reproduced bit-exact, including the
extractors, the substituted log and single-revision diff commands, the
url-passing flags, and the tabular diffstat invocation with strip level
0 for subversion and 1 for git and mercurial. -/
theorem c6_command_table (url rev : String) :
    diffcmd "subversion" = some subversionSpec ∧
    diffcmd "git" = some gitSpec ∧
    diffcmd "mercurial" = some mercurialSpec ∧
    buildLogCommand subversionSpec url = "svn log -q " ++ url ∧
    subversionSpec.logregex = some svnLogExtract ∧
    buildSingleCommand subversionSpec rev url = "svn diff -c " ++ rev ++ " " ++ url ∧
    subversionSpec.passurl = true ∧
    buildLogCommand gitSpec url = "git rev-list HEAD" ∧
    gitSpec.logregex = none ∧
    buildSingleCommand gitSpec rev url = "git diff-tree -U --no-renames --root " ++ rev ∧
    gitSpec.passurl = false ∧
    buildLogCommand mercurialSpec url = "hg log -q" ∧
    mercurialSpec.logregex = some hgLogExtract ∧
    buildSingleCommand mercurialSpec rev url = "hg diff -c " ++ rev ∧
    mercurialSpec.passurl = false ∧
    diffstatCommand "subversion" = "diffstat -t -p0" ∧
    diffstatCommand "git" = "diffstat -t -p1" ∧
    diffstatCommand "mercurial" = "diffstat -t -p1" ∧
    svnLogExtract "r7 | bob | 2011-01-01\n" = some "7" ∧
    hgLogExtract "12:ffe0a1b2c3\n" = some "ffe0a1b2c3" :=
  ⟨rfl, rfl, rfl, sprintf1_svn_log url, rfl, sprintf2_svn_single rev url, rfl, rfl, rfl,
   sprintf1_git_single rev, rfl, rfl, rfl, sprintf1_hg_single rev, rfl, rfl, rfl, rfl,
   by decide, by decide⟩

/-- C7: with no extractor set (the git case), the extracted revision list
is the line list itself, and every line produced by readlines, hence
every enumerated revision id, is a non-empty string. -/
theorem c7_git_verbatim_nonempty (s : String) :
    extractLog gitSpec.logregex (readlines s) = readlines s ∧
    ∀ r ∈ readlines s, r ≠ "" :=
  ⟨rfl, readlines_ne_empty s⟩

/-- C8: once the probe has succeeded and the backend is one of the three
table entries, the run always ends in an exit code 0 outcome, one
comparison per enumerated revision, regardless of mismatches; with zero
enumerated revisions there are zero comparisons and no artifact files. -/
theorem c8_mismatch_never_fatal (w : World) (exitOk : Bool)
    (pepper ts ds repo olddir : String)
    (desc : RepositoryDescriptor) (spec : BackendSpec)
    (hprobe : probe exitOk (readlines (w.run olddir (probeCommand pepper ts repo))) =
      Except.ok desc)
    (hspec : diffcmd desc.backendType = some spec) :
    ∃ rr, runPipeline w exitOk pepper ts ds repo olddir = Except.ok rr ∧
      rr.exitCode = 0 ∧
      rr.results.length =
        (extractLog spec.logregex (readlines (w.run (if spec.passurl then olddir else desc.url)
          (buildLogCommand spec desc.url)))).length ∧
      (extractLog spec.logregex (readlines (w.run (if spec.passurl then olddir else desc.url)
          (buildLogCommand spec desc.url))) = [] → rr.results = [] ∧ rr.files = []) := by
  simp only [runPipeline, hprobe, hspec]
  refine ⟨_, rfl, rfl, by simp, fun h => ?_⟩
  rw [h]
  exact ⟨rfl, rfl⟩

/-- Witness for C8 at a concrete input: on a one-revision git repository
whose diffstats mismatch, the run still completes with exit code 0. -/
theorem c8_witness :
    ∃ rr, runPipeline demoWorld true "pepper" "/tmp/t" "/tmp/d" "repo" "/old" =
      Except.ok rr ∧ rr.exitCode = 0 := by
  obtain ⟨rr, h1, h2, _, _⟩ := c8_mismatch_never_fatal demoWorld true "pepper" "/tmp/t"
    "/tmp/d" "repo" "/old" ⟨"git", "/repo"⟩ gitSpec rfl rfl
  exact ⟨rr, h1, h2⟩

/-- C9: two runs over oracles that answer every subprocess query with the
same output produce the same ordered revision id list and the same match
verdict for every revision. -/
theorem c9_determinism (w1 w2 : World) (exitOk : Bool)
    (pepper ts ds repo olddir : String)
    (hrun : ∀ cwd cmd, w1.run cwd cmd = w2.run cwd cmd)
    (hfil : ∀ cwd cmd stdin, w1.runFilter cwd cmd stdin = w2.runFilter cwd cmd stdin) :
    Except.map revisionIdsOf (runPipeline w1 exitOk pepper ts ds repo olddir) =
      Except.map revisionIdsOf (runPipeline w2 exitOk pepper ts ds repo olddir) ∧
    Except.map matchVerdictsOf (runPipeline w1 exitOk pepper ts ds repo olddir) =
      Except.map matchVerdictsOf (runPipeline w2 exitOk pepper ts ds repo olddir) := by
  have hw : w1 = w2 := by
    cases w1 with
    | mk r1 f1 =>
      cases w2 with
      | mk r2 f2 =>
        have hr : r1 = r2 := funext fun c => funext fun m => hrun c m
        have hf : f1 = f2 := funext fun c => funext fun m => funext fun s => hfil c m s
        rw [hr, hf]
  rw [hw]
  exact ⟨rfl, rfl⟩

/-- Witness for C9 at a concrete input: the pipeline over the demo oracle
agrees with itself on revision ids. -/
theorem c9_witness :
    Except.map revisionIdsOf (runPipeline demoWorld true "pepper" "/tmp/t" "/tmp/d" "repo" "/old") =
      Except.map revisionIdsOf (runPipeline demoWorld true "pepper" "/tmp/t" "/tmp/d" "repo" "/old") :=
  (c9_determinism demoWorld demoWorld true "pepper" "/tmp/t" "/tmp/d" "repo" "/old"
    (fun _ _ => rfl) (fun _ _ _ => rfl)).1

theorem perInvocations_cwd (w : World) (b : BackendSpec) (t p d repo u o c : String)
    (revs : List String) :
    ∀ q ∈ ((revs.map (processRevision w b t p d repo u o c)).map
      (fun pr => pr.snd.invocations)).flatten, q.fst = c := by
  intro q hq
  obtain ⟨l, hl, hql⟩ := List.mem_flatten.mp hq
  obtain ⟨pr, hpr, rfl⟩ := List.mem_map.mp hl
  obtain ⟨raw, hraw, rfl⟩ := List.mem_map.mp hpr
  rw [processRevision_invocations] at hql
  simp at hql
  rcases hql with h | h | h <;> rw [h]

theorem perPepper_mem (w : World) (b : BackendSpec) (t p d repo u o c : String)
    (revs : List String) (raw : String) (hraw : raw ∈ revs) :
    (c, pepperCommand p d (rubyStrip raw) repo) ∈
      ((revs.map (processRevision w b t p d repo u o c)).map
        (fun pr => pr.snd.invocations)).flatten := by
  refine List.mem_flatten.mpr
    ⟨(processRevision w b t p d repo u o c raw).snd.invocations, ?_, ?_⟩
  · exact List.mem_map.mpr
      ⟨processRevision w b t p d repo u o c raw, List.mem_map.mpr ⟨raw, hraw, rfl⟩, rfl⟩
  · rw [processRevision_invocations]
    simp

theorem perFiles_names (w : World) (b : BackendSpec) (t p d repo u o c : String)
    (revs : List String) :
    ∀ f ∈ ((revs.map (processRevision w b t p d repo u o c)).map
      (fun pr => pr.snd.files)).flatten,
      ∃ raw ∈ revs, f.fst = o ++ "/diff.pepper." ++ rubyStrip raw ∨
        f.fst = o ++ "/diff.native." ++ rubyStrip raw := by
  intro f hf
  obtain ⟨l, hl, hfl⟩ := List.mem_flatten.mp hf
  obtain ⟨pr, hpr, rfl⟩ := List.mem_map.mp hl
  obtain ⟨raw, hraw, rfl⟩ := List.mem_map.mp hpr
  rw [processRevision_snd] at hfl
  split at hfl
  · simp at hfl
  · simp at hfl
    rcases hfl with h | h
    · exact ⟨raw, hraw, Or.inl (by rw [h]; rfl)⟩
    · exact ⟨raw, hraw, Or.inr (by rw [h]; rfl)⟩

/-- C10: when the backend does not pass the URL explicitly, the working
directory of the log fetch and of every per-revision subprocess is the
repository url (changed once, before log enumeration, and never
restored); the tool under test still receives the caller-supplied
repository argument inside its command line; and every artifact file is
addressed under the launch directory captured before the change. -/
theorem c10_working_directory (w : World) (exitOk : Bool)
    (pepper ts ds repo olddir : String)
    (desc : RepositoryDescriptor) (spec : BackendSpec)
    (hprobe : probe exitOk (readlines (w.run olddir (probeCommand pepper ts repo))) =
      Except.ok desc)
    (hspec : diffcmd desc.backendType = some spec)
    (hnp : spec.passurl = false) :
    ∃ rr, runPipeline w exitOk pepper ts ds repo olddir = Except.ok rr ∧
      (∀ q ∈ rr.trace, q.fst = desc.url) ∧
      (∀ rev ∈ revisionIdsOf rr, (desc.url, pepperCommand pepper ds rev repo) ∈ rr.trace) ∧
      (∀ f ∈ rr.files, ∃ rev ∈ revisionIdsOf rr,
        f.fst = olddir ++ "/diff.pepper." ++ rev ∨
        f.fst = olddir ++ "/diff.native." ++ rev) := by
  simp only [runPipeline, hprobe, hspec, hnp, Bool.false_eq_true, if_false]
  refine ⟨_, rfl, ?_, ?_, ?_⟩
  · intro q hq
    rcases List.mem_cons.mp hq with h | h
    · rw [h]
    · exact perInvocations_cwd w spec desc.backendType pepper ds repo desc.url olddir desc.url
        _ q h
  · intro rev hrev
    obtain ⟨r1, hr1, rfl⟩ := List.mem_map.mp hrev
    obtain ⟨pr, hpr, rfl⟩ := List.mem_map.mp hr1
    obtain ⟨raw, hraw, rfl⟩ := List.mem_map.mp hpr
    exact List.mem_cons_of_mem _
      (perPepper_mem w spec desc.backendType pepper ds repo desc.url olddir desc.url _ raw hraw)
  · intro f hf
    obtain ⟨raw, hraw, hor⟩ := perFiles_names w spec desc.backendType pepper ds repo desc.url
      olddir desc.url _ f hf
    refine ⟨rubyStrip raw, ?_, hor⟩
    exact List.mem_map.mpr
      ⟨(processRevision w spec desc.backendType pepper ds repo desc.url olddir desc.url raw).fst,
       List.mem_map.mpr
         ⟨processRevision w spec desc.backendType pepper ds repo desc.url olddir desc.url raw,
          List.mem_map.mpr ⟨raw, hraw, rfl⟩, rfl⟩, rfl⟩

/-- Witness for C10 at a concrete input: on the demo git repository every
traced subprocess after the probe runs in the repository directory. -/
theorem c10_witness :
    ∃ rr, runPipeline demoWorld true "pepper" "/tmp/t" "/tmp/d" "repo" "/old" =
      Except.ok rr ∧ ∀ q ∈ rr.trace, q.fst = "/repo" := by
  obtain ⟨rr, h1, h2, _, _⟩ := c10_working_directory demoWorld true "pepper" "/tmp/t" "/tmp/d"
    "repo" "/old" ⟨"git", "/repo"⟩ gitSpec rfl rfl rfl
  exact ⟨rr, h1, h2⟩

end Diffcmp
